import Mathlib

/-!
Verification of the argument parser in src/snap-confine-args.c.

The parser is embedded shallowly:

* a C string is a Lean `String`; the check `argv[optind][0] == '-'` becomes
  `startsDash` (an empty C string has NUL at index 0, which is not a dash,
  hence `startsDash "" = false`);
* the caller cells `int *argcp` and `char ***argvp` become `Option Nat` and
  `Option (List String)`, where `none` models a NULL pointer and the function
  returns the new cell contents alongside the result and the error cell;
* the NULL terminator written after the shifted argument vector is modelled
  by the end of the returned list;
* `struct sc_args *` results are `Option sc_args` (NULL is `none`) and the
  error cell is `Option sc_error`.
-/

/-- Modelled from the spec: the stable error-domain tag declared in
snap-confine-args.h, which is not part of the sources; the spec only
requires it to be a named domain identifier. -/
def SC_ARGS_DOMAIN : String := "snap-confine-args"

/-- Modelled from the spec: the usage-error code declared in
snap-confine-args.h, which is not part of the sources; the spec only
requires it to be non-zero (0 is the generic failure code). -/
def SC_ARGS_ERR_USAGE : Nat := 1

/-- Embedding of `struct sc_error` (domain, code, printf-formatted message). -/
structure sc_error where
  domain : String
  code : Nat
  msg : String
deriving DecidableEq

/-- Embedding of `struct sc_args`: NULL string fields are `none`. -/
structure sc_args where
  security_tag : Option String
  executable : Option String
  is_version_query : Bool
  is_classic_confinement : Bool
deriving DecidableEq

/-- The test `argv[optind][0] == '-'` from the C source. An empty string has
the NUL terminator at index 0, which is not a dash. -/
def startsDash (s : String) : Bool :=
  match s.data with
  | [] => false
  | c :: _ => c == '-'

/-- The characters after the last slash of a character list, or `none` when
no slash occurs. -/
def afterLastSlash : List Char → Option (List Char)
  | [] => none
  | c :: cs =>
    match afterLastSlash cs with
    | some r => some r
    | none => if c = '/' then some cs else none

/-- Embedding of the `strrchr(argv[0], '/')` basename computation: `none`
when the string holds no slash (strrchr returned NULL), otherwise the suffix
after the last slash. -/
def basenameAfterSlash (s : String) : Option String :=
  (afterLastSlash s.data).map fun cs => String.mk cs

/-- The legacy-invocation check on argv[0]: `ignore_first_tag` is set only
when argv[0] holds a slash and the text after the last slash is exactly
"ubuntu-core-launcher". -/
def ignoreFirstTagOf (argv0 : String) : Bool :=
  match basenameAfterSlash argv0 with
  | some b => b == "ubuntu-core-launcher"
  | none => false

/-- Embedding of the scan loop of `sc_nonfatal_parse_args` (`for (optind = 1;
optind < argc; ++optind)`): the remaining tokens are passed as a list whose
head sits at index `optind` of the original vector. On normal exit it yields
the final `sc_args` state together with the value of `optind` when the loop
stopped (the index of the token `break` was hit on, or the count when the
loop ran to completion); an unrecognized switch yields the usage error. -/
def scanLoop : Bool → sc_args → Nat → List String → Except sc_error (sc_args × Nat)
  | _, args, optind, [] => .ok (args, optind)
  | ignore_first_tag, args, optind, tok :: rest =>
    if startsDash tok then
      if tok = "--version" then
        .ok ({ args with is_version_query := true }, optind)
      else if tok = "--classic" then
        scanLoop ignore_first_tag { args with is_classic_confinement := true } (optind + 1) rest
      else
        .error ⟨SC_ARGS_DOMAIN, SC_ARGS_ERR_USAGE,
          "unrecognized command line option: " ++ tok⟩
    else
      match args.security_tag with
      | none =>
        if ignore_first_tag then
          scanLoop false args (optind + 1) rest
        else
          scanLoop ignore_first_tag { args with security_tag := some tok } (optind + 1) rest
      | some _ =>
        match args.executable with
        | none => .ok ({ args with executable := some tok }, optind)
        | some _ => scanLoop ignore_first_tag args (optind + 1) rest

/-- What `sc_nonfatal_parse_args` leaves behind: the returned handle, the two
caller cells as the call leaves them, and the forwarded error cell. -/
structure ParseResult where
  ret : Option sc_args
  argcp : Option Nat
  argvp : Option (List String)
  errp : Option sc_error
deriving DecidableEq

/-- Embedding of `sc_nonfatal_parse_args`. The cells `argcp`/`argvp` are
`none` when the corresponding pointer is NULL. On success the vector cell is
rewritten to argv[0] followed by the tokens strictly after the stop position
(the trailing NULL is the end of the list) and the count cell becomes
`argc - optind`; on every failure both cells are left untouched. -/
def sc_nonfatal_parse_args (argcp : Option Nat) (argvp : Option (List String)) : ParseResult :=
  match argcp, argvp with
  | none, _ =>
    ⟨none, argcp, argvp, some ⟨SC_ARGS_DOMAIN, 0, "cannot parse arguments, argc or argv are NULL"⟩⟩
  | _, none =>
    ⟨none, argcp, argvp, some ⟨SC_ARGS_DOMAIN, 0, "cannot parse arguments, argc or argv are NULL"⟩⟩
  | some argc, some argv =>
    if argc = 0 then
      ⟨none, argcp, argvp, some ⟨SC_ARGS_DOMAIN, 0, "cannot parse arguments, argc is zero"⟩⟩
    else
      match scanLoop (ignoreFirstTagOf (argv.headD "")) ⟨none, none, false, false⟩ 1
          ((argv.take argc).drop 1) with
      | .error e => ⟨none, argcp, argvp, some e⟩
      | .ok (args, optind) =>
        if !args.is_version_query && args.security_tag.isNone then
          ⟨none, argcp, argvp, some ⟨SC_ARGS_DOMAIN, SC_ARGS_ERR_USAGE,
            "application or hook security tag was not provided"⟩⟩
        else if !args.is_version_query && args.executable.isNone then
          ⟨none, argcp, argvp, some ⟨SC_ARGS_DOMAIN, SC_ARGS_ERR_USAGE,
            "executable name was not provided"⟩⟩
        else
          ⟨some args, some (argc - optind),
            some (argv.headD "" :: (argv.take argc).drop (optind + 1)), none⟩

/-- The final path component in the sense of the spec wording: the text
after the last slash, or the whole string when it holds no slash. Used only
to state what the spec asserts about legacy detection; the code itself uses
`basenameAfterSlash`. -/
def finalPathComponent (s : String) : String :=
  (basenameAfterSlash s).getD s

/-- Embedding of `sc_args_free`: safe on NULL; afterwards the passed handle
is dead, which the model renders as `none`. -/
def sc_args_free (a : Option sc_args) : Option sc_args :=
  match a with
  | none => none
  | some _ => none

/-- Embedding of `sc_cleanup_args`: frees `*ptr` and stores NULL back into
the cell. -/
def sc_cleanup_args (ptr : Option sc_args) : Option sc_args :=
  let _ := sc_args_free ptr
  none

theorem scan_stop_bounds (toks : List String) :
    ∀ (ign : Bool) (st : sc_args) (i : Nat) (st' : sc_args) (stop : Nat),
      scanLoop ign st i toks = .ok (st', stop) → i ≤ stop ∧ stop ≤ i + toks.length := by
  induction toks with
  | nil =>
    intro ign st i st' stop h
    simp [scanLoop] at h
    omega
  | cons tok rest ih =>
    intro ign st i st' stop h
    simp only [scanLoop] at h
    split at h
    · split at h
      · simp at h
        omega
      · split at h
        · have := ih _ _ _ _ _ h
          simp only [List.length_cons]
          omega
        · simp at h
    · split at h
      · split at h
        · have := ih _ _ _ _ _ h
          simp only [List.length_cons]
          omega
        · have := ih _ _ _ _ _ h
          simp only [List.length_cons]
          omega
      · split at h
        · simp at h
          omega
        · have := ih _ _ _ _ _ h
          simp only [List.length_cons]
          omega

theorem scan_classic_mem (toks : List String) :
    ∀ (ign : Bool) (st : sc_args) (i : Nat) (st' : sc_args) (stop : Nat),
      scanLoop ign st i toks = .ok (st', stop) →
      (st'.is_classic_confinement = true ↔
        (st.is_classic_confinement = true ∨ "--classic" ∈ toks.take (stop - i))) := by
  induction toks with
  | nil =>
    intro ign st i st' stop h
    simp [scanLoop] at h
    obtain ⟨rfl, -⟩ := h
    simp
  | cons tok rest ih =>
    intro ign st i st' stop h
    simp only [scanLoop] at h
    split at h
    · split at h
      · rename_i hdash hver
        simp at h
        obtain ⟨⟨rfl, rfl⟩, rfl⟩ := h
        simp
      · split at h
        · rename_i hdash hver hcls
          have hb := scan_stop_bounds rest _ _ _ _ _ h
          have hih := ih _ _ _ _ _ h
          have htake : (tok :: rest).take (stop - i) = tok :: rest.take (stop - (i + 1)) := by
            have : stop - i = (stop - (i + 1)) + 1 := by omega
            rw [this, List.take_succ_cons]
          rw [htake]
          subst hcls
          simp at hih
          simp [hih]
        · simp at h
    · rename_i hdash
      have hnotcls : "--classic" ≠ tok := by
        intro he
        rw [← he] at hdash
        simp [startsDash] at hdash
      split at h
      · split at h
        · have hb := scan_stop_bounds rest _ _ _ _ _ h
          have hih := ih _ _ _ _ _ h
          have htake : (tok :: rest).take (stop - i) = tok :: rest.take (stop - (i + 1)) := by
            have : stop - i = (stop - (i + 1)) + 1 := by omega
            rw [this, List.take_succ_cons]
          rw [htake, hih]
          simp [List.mem_cons, hnotcls]
        · have hb := scan_stop_bounds rest _ _ _ _ _ h
          have hih := ih _ _ _ _ _ h
          have htake : (tok :: rest).take (stop - i) = tok :: rest.take (stop - (i + 1)) := by
            have : stop - i = (stop - (i + 1)) + 1 := by omega
            rw [this, List.take_succ_cons]
          rw [htake, hih]
          simp [List.mem_cons, hnotcls]
      · split at h
        · simp at h
          obtain ⟨⟨rfl, rfl⟩, rfl⟩ := h
          simp
        · have hb := scan_stop_bounds rest _ _ _ _ _ h
          have hih := ih _ _ _ _ _ h
          have htake : (tok :: rest).take (stop - i) = tok :: rest.take (stop - (i + 1)) := by
            have : stop - i = (stop - (i + 1)) + 1 := by omega
            rw [this, List.take_succ_cons]
          rw [htake, hih]
          simp [List.mem_cons, hnotcls]

theorem parse_assemble (argv : List String) (st : sc_args) (stop : Nat)
    (h0 : argv ≠ [])
    (hs : scanLoop (ignoreFirstTagOf (argv.headD "")) ⟨none, none, false, false⟩ 1
      (argv.drop 1) = .ok (st, stop))
    (hv1 : (!st.is_version_query && st.security_tag.isNone) = false)
    (hv2 : (!st.is_version_query && st.executable.isNone) = false) :
    sc_nonfatal_parse_args (some argv.length) (some argv) =
      ⟨some st, some (argv.length - stop),
        some (argv.headD "" :: argv.drop (stop + 1)), none⟩ := by
  have hne : argv.length ≠ 0 := by simpa using h0
  simp only [sc_nonfatal_parse_args, List.take_length]
  rw [if_neg hne, hs]
  simp [hv1, hv2]

theorem parse_fail_cells (argv : List String) (e : sc_error)
    (h0 : argv ≠ [])
    (hs : scanLoop (ignoreFirstTagOf (argv.headD "")) ⟨none, none, false, false⟩ 1
      (argv.drop 1) = .error e) :
    sc_nonfatal_parse_args (some argv.length) (some argv) =
      ⟨none, some argv.length, some argv, some e⟩ := by
  have hne : argv.length ≠ 0 := by simpa using h0
  simp only [sc_nonfatal_parse_args, List.take_length]
  rw [if_neg hne, hs]

/-- C1: for every pair of tokens tag and exe that do not begin with a dash,
parsing ["prog", tag, exe] succeeds, the stored security_tag is tag, the
stored executable is exe, and both flags are false. -/
theorem parse_two_positionals_ok (tag exe : String)
    (htag : startsDash tag = false) (hexe : startsDash exe = false) :
    sc_nonfatal_parse_args (some 3) (some ["prog", tag, exe]) =
      ⟨some ⟨some tag, some exe, false, false⟩, some 1, some ["prog"], none⟩ := by
  have hign : ignoreFirstTagOf "prog" = false := rfl
  have hscan : scanLoop (ignoreFirstTagOf ((["prog", tag, exe] : List String).headD ""))
      ⟨none, none, false, false⟩ 1 ((["prog", tag, exe] : List String).drop 1) =
      .ok (⟨some tag, some exe, false, false⟩, 2) := by
    simp [scanLoop, htag, hexe, hign]
  have h := parse_assemble ["prog", tag, exe] ⟨some tag, some exe, false, false⟩ 2
    (by simp) hscan (by simp) (by simp)
  simpa using h

/-- Witness for C1 at tag := "tag", exe := "exe". -/
theorem parse_two_positionals_ok_witness :
    startsDash "tag" = false ∧ startsDash "exe" = false ∧
    sc_nonfatal_parse_args (some 3) (some ["prog", "tag", "exe"]) =
      ⟨some ⟨some "tag", some "exe", false, false⟩, some 1, some ["prog"], none⟩ :=
  ⟨rfl, rfl, parse_two_positionals_ok "tag" "exe" rfl rfl⟩

/-- C3: a "--version" token at the first scanned position short-circuits the
scan: whatever trails it, parsing succeeds with is_version_query true, no
trailing token reaches security_tag, executable or is_classic_confinement,
and the missing-tag/missing-executable validation is skipped (both fields
may stay unset). -/
theorem version_short_circuits (rest : List String) :
    sc_nonfatal_parse_args (some ("prog" :: "--version" :: rest).length)
      (some ("prog" :: "--version" :: rest)) =
      ⟨some ⟨none, none, true, false⟩, some (rest.length + 1), some ("prog" :: rest), none⟩ := by
  have hd : startsDash "--version" = true := rfl
  have hscan : scanLoop (ignoreFirstTagOf (("prog" :: "--version" :: rest).headD ""))
      ⟨none, none, false, false⟩ 1 (("prog" :: "--version" :: rest).drop 1) =
      .ok (⟨none, none, true, false⟩, 1) := by
    simp [scanLoop, hd]
  have h := parse_assemble ("prog" :: "--version" :: rest) ⟨none, none, true, false⟩ 1
    (by simp) hscan (by simp) (by simp)
  simpa using h

/-- C4: a scanned token that starts with a dash but is neither "--version"
nor "--classic" (the lone dash included) makes the scan fail at once with a
usage error whose message carries the token verbatim, independently of the
tokens after it, of the scan state and of the position; such a command line
therefore fails to parse and the caller cells are untouched. -/
theorem unrecognized_switch_fails (ign : Bool) (st : sc_args) (i : Nat)
    (tok : String) (rest : List String)
    (h1 : startsDash tok = true) (h2 : tok ≠ "--version") (h3 : tok ≠ "--classic") :
    scanLoop ign st i (tok :: rest) =
      .error ⟨SC_ARGS_DOMAIN, SC_ARGS_ERR_USAGE, "unrecognized command line option: " ++ tok⟩ ∧
    sc_nonfatal_parse_args (some ("prog" :: tok :: rest).length) (some ("prog" :: tok :: rest)) =
      ⟨none, some ("prog" :: tok :: rest).length, some ("prog" :: tok :: rest),
        some ⟨SC_ARGS_DOMAIN, SC_ARGS_ERR_USAGE, "unrecognized command line option: " ++ tok⟩⟩ := by
  have hscan : ∀ (g : Bool) (s : sc_args) (j : Nat), scanLoop g s j (tok :: rest) =
      .error ⟨SC_ARGS_DOMAIN, SC_ARGS_ERR_USAGE, "unrecognized command line option: " ++ tok⟩ := by
    intro g s j
    simp [scanLoop, h1, h2, h3]
  refine ⟨hscan ign st i, ?_⟩
  have h := parse_fail_cells ("prog" :: tok :: rest)
    ⟨SC_ARGS_DOMAIN, SC_ARGS_ERR_USAGE, "unrecognized command line option: " ++ tok⟩
    (by simp) (by simpa using hscan (ignoreFirstTagOf "prog") ⟨none, none, false, false⟩ 1)
  simpa using h

/-- Witness for C4 at the spec example "--bogus" and at the lone dash. -/
theorem unrecognized_switch_fails_witness :
    (startsDash "--bogus" = true ∧
     sc_nonfatal_parse_args (some 2) (some ["prog", "--bogus"]) =
       ⟨none, some 2, some ["prog", "--bogus"],
         some ⟨SC_ARGS_DOMAIN, SC_ARGS_ERR_USAGE, "unrecognized command line option: --bogus"⟩⟩) ∧
    (startsDash "-" = true ∧
     sc_nonfatal_parse_args (some 2) (some ["prog", "-"]) =
       ⟨none, some 2, some ["prog", "-"],
         some ⟨SC_ARGS_DOMAIN, SC_ARGS_ERR_USAGE, "unrecognized command line option: -"⟩⟩) := by
  refine ⟨⟨rfl, ?_⟩, ⟨rfl, ?_⟩⟩
  · exact (unrecognized_switch_fails false ⟨none, none, false, false⟩ 1 "--bogus" []
      rfl (by decide) (by decide)).2
  · exact (unrecognized_switch_fails false ⟨none, none, false, false⟩ 1 "-" []
      rfl (by decide) (by decide)).2

/-- C10: releasing a result nulls the caller cell, and a second release on
the already-nulled cell is a no-op (release is idempotent and safe on NULL). -/
theorem cleanup_args_nulls_and_idempotent (p : Option sc_args) :
    sc_cleanup_args p = none ∧ sc_cleanup_args (sc_cleanup_args p) = sc_cleanup_args p := by
  simp [sc_cleanup_args]

/-- C2 counterexample: invoked with argv[0] = "ubuntu-core-launcher" (no
leading directory, so its final path component is the legacy name itself),
the parser does NOT discard the first positional: it becomes the
security_tag ("legacy-tag" instead of the claimed "tag"), because the code
only looks for the legacy name after a literal slash (strrchr returns NULL
otherwise). -/
theorem legacy_name_without_slash_not_detected :
    finalPathComponent "ubuntu-core-launcher" = "ubuntu-core-launcher" ∧
    basenameAfterSlash "ubuntu-core-launcher" = none ∧
    (sc_nonfatal_parse_args (some 4)
        (some ["ubuntu-core-launcher", "legacy-tag", "tag", "exe"])).ret =
      some ⟨some "legacy-tag", some "tag", false, false⟩ ∧
    (some "legacy-tag" : Option String) ≠ some "tag" := by
  decide

/-- C2 as amended: when argv[0] holds at least one slash and the text after
its last slash is exactly "ubuntu-core-launcher", the first positional is
discarded, the second becomes security_tag and the third becomes the
executable. -/
theorem legacy_invocation_discards_first_positional (argv0 t0 t1 t2 : String)
    (hb : basenameAfterSlash argv0 = some "ubuntu-core-launcher")
    (h0 : startsDash t0 = false) (h1 : startsDash t1 = false) (h2 : startsDash t2 = false) :
    sc_nonfatal_parse_args (some 4) (some [argv0, t0, t1, t2]) =
      ⟨some ⟨some t1, some t2, false, false⟩, some 1, some [argv0], none⟩ := by
  have hign : ignoreFirstTagOf argv0 = true := by
    simp [ignoreFirstTagOf, hb]
  have hscan : scanLoop (ignoreFirstTagOf (([argv0, t0, t1, t2] : List String).headD ""))
      ⟨none, none, false, false⟩ 1 (([argv0, t0, t1, t2] : List String).drop 1) =
      .ok (⟨some t1, some t2, false, false⟩, 3) := by
    simp [scanLoop, hign, h0, h1, h2]
  have h := parse_assemble [argv0, t0, t1, t2] ⟨some t1, some t2, false, false⟩ 3
    (by simp) hscan (by simp) (by simp)
  simpa using h

/-- Witness for the amended C2 at the spec example
"/path/ubuntu-core-launcher" "legacy-tag" "tag" "exe". -/
theorem legacy_invocation_discards_first_positional_witness :
    basenameAfterSlash "/path/ubuntu-core-launcher" = some "ubuntu-core-launcher" ∧
    sc_nonfatal_parse_args (some 4)
        (some ["/path/ubuntu-core-launcher", "legacy-tag", "tag", "exe"]) =
      ⟨some ⟨some "tag", some "exe", false, false⟩, some 1,
        some ["/path/ubuntu-core-launcher"], none⟩ := by
  refine ⟨by decide, ?_⟩
  exact legacy_invocation_discards_first_positional "/path/ubuntu-core-launcher"
    "legacy-tag" "tag" "exe" (by decide) rfl rfl rfl

/-- C5: whenever the scan runs to an error-free stop with is_version_query
still false, parsing fails with the usage error citing the missing security
tag if none was stored (in particular when both fields are missing), and
otherwise with the usage error citing the missing executable if none was
stored; the caller cells are untouched. -/
theorem missing_tag_then_missing_executable (argv : List String) (st : sc_args) (stop : Nat)
    (h0 : argv ≠ [])
    (hs : scanLoop (ignoreFirstTagOf (argv.headD "")) ⟨none, none, false, false⟩ 1
      (argv.drop 1) = .ok (st, stop))
    (hv : st.is_version_query = false) :
    (st.security_tag = none →
      sc_nonfatal_parse_args (some argv.length) (some argv) =
        ⟨none, some argv.length, some argv,
          some ⟨SC_ARGS_DOMAIN, SC_ARGS_ERR_USAGE,
            "application or hook security tag was not provided"⟩⟩) ∧
    (st.security_tag ≠ none → st.executable = none →
      sc_nonfatal_parse_args (some argv.length) (some argv) =
        ⟨none, some argv.length, some argv,
          some ⟨SC_ARGS_DOMAIN, SC_ARGS_ERR_USAGE,
            "executable name was not provided"⟩⟩) := by
  have hne : argv.length ≠ 0 := by simpa using h0
  constructor
  · intro htag
    simp only [sc_nonfatal_parse_args, List.take_length]
    rw [if_neg hne, hs]
    simp [hv, htag]
  · intro htag hexe
    simp only [sc_nonfatal_parse_args, List.take_length]
    rw [if_neg hne, hs]
    simp [hv, htag, hexe, Option.isNone_iff_eq_none]

/-- Witness for C5: parse(["prog"]) cites the missing security tag and
parse(["prog", "tag"]) cites the missing executable. -/
theorem missing_tag_then_missing_executable_witness :
    (sc_nonfatal_parse_args (some 1) (some ["prog"]) =
      ⟨none, some 1, some ["prog"],
        some ⟨SC_ARGS_DOMAIN, SC_ARGS_ERR_USAGE,
          "application or hook security tag was not provided"⟩⟩) ∧
    (sc_nonfatal_parse_args (some 2) (some ["prog", "tag"]) =
      ⟨none, some 2, some ["prog", "tag"],
        some ⟨SC_ARGS_DOMAIN, SC_ARGS_ERR_USAGE,
          "executable name was not provided"⟩⟩) := by
  constructor
  · exact (missing_tag_then_missing_executable ["prog"] ⟨none, none, false, false⟩ 1
      (by decide) rfl rfl).1 rfl
  · exact (missing_tag_then_missing_executable ["prog", "tag"]
      ⟨some "tag", none, false, false⟩ 2 (by decide) rfl rfl).2 (by decide) rfl

/-- C8: on a successful parse the vector cell is rewritten to argv[0]
followed, in order, by the tokens strictly after the stop position of the
scan (the end of the list models the written NULL terminator), and the
count cell is the original count minus the stop position. -/
theorem success_compacts_argv (argv : List String) (st : sc_args) (stop : Nat)
    (h0 : argv ≠ [])
    (hs : scanLoop (ignoreFirstTagOf (argv.headD "")) ⟨none, none, false, false⟩ 1
      (argv.drop 1) = .ok (st, stop))
    (hval : st.is_version_query = true ∨ (st.security_tag ≠ none ∧ st.executable ≠ none)) :
    sc_nonfatal_parse_args (some argv.length) (some argv) =
      ⟨some st, some (argv.length - stop),
        some (argv.headD "" :: argv.drop (stop + 1)), none⟩ := by
  have hv1 : (!st.is_version_query && st.security_tag.isNone) = false := by
    rcases hval with hq | ⟨ht, -⟩
    · simp [hq]
    · have hn : st.security_tag.isNone = false := by
        cases hx : st.security_tag
        · exact absurd hx ht
        · rfl
      simp [hn]
  have hv2 : (!st.is_version_query && st.executable.isNone) = false := by
    rcases hval with hq | ⟨-, he⟩
    · simp [hq]
    · have hn : st.executable.isNone = false := by
        cases hx : st.executable
        · exact absurd hx he
        · rfl
      simp [hn]
  exact parse_assemble argv st stop h0 hs hv1 hv2

/-- Witness for C8 at the spec example: parsing
["prog", "tag", "exe", "extra1", "extra2"] leaves ["prog", "extra1",
"extra2"] with count 3. -/
theorem success_compacts_argv_witness :
    sc_nonfatal_parse_args (some 5) (some ["prog", "tag", "exe", "extra1", "extra2"]) =
      ⟨some ⟨some "tag", some "exe", false, false⟩, some 3,
        some ["prog", "extra1", "extra2"], none⟩ := by
  have h := success_compacts_argv ["prog", "tag", "exe", "extra1", "extra2"]
    ⟨some "tag", some "exe", false, false⟩ 2 (by decide) rfl
    (Or.inr ⟨by decide, by decide⟩)
  simpa using h

theorem parse_success_shape (argc : Nat) (argv : List String) (a : sc_args) (n : Nat)
    (v : List String)
    (h : sc_nonfatal_parse_args (some argc) (some argv) = ⟨some a, some n, some v, none⟩) :
    argc ≠ 0 ∧ ∃ stop,
      scanLoop (ignoreFirstTagOf (argv.headD "")) ⟨none, none, false, false⟩ 1
        ((argv.take argc).drop 1) = .ok (a, stop) ∧
      n = argc - stop := by
  simp only [sc_nonfatal_parse_args] at h
  split at h
  · simp at h
  · rename_i hz
    split at h
    · simp at h
    · rename_i args optind heq
      split at h
      · simp at h
      · split at h
        · simp at h
        · simp only [ParseResult.mk.injEq, Option.some.injEq] at h
          obtain ⟨ha, hn, -, -⟩ := h
          exact ⟨hz, optind, by rw [heq, ha], hn.symm⟩

/-- C6 counterexample: parsing ["prog", "tag", "exe", "--classic"] succeeds
with is_classic_confinement false even though "--classic" occurs in
argv[1..]: the scan stopped at the executable and never saw it. -/
theorem classic_after_stop_not_seen :
    sc_nonfatal_parse_args (some 4) (some ["prog", "tag", "exe", "--classic"]) =
      ⟨some ⟨some "tag", some "exe", false, false⟩, some 2, some ["prog", "--classic"], none⟩ ∧
    "--classic" ∈ (["tag", "exe", "--classic"] : List String) ∧
    (⟨some "tag", some "exe", false, false⟩ : sc_args).is_classic_confinement = false := by
  decide

/-- C6 as amended: on a successful parse, is_classic_confinement is true iff
"--classic" occurred among the tokens the scan consumed strictly before its
stop position, i.e. in argv[1..stop-1] where stop is the original count
minus the written-back count; tokens at or after the stop position do not
affect the flag. -/
theorem classic_iff_scanned_before_stop (argv : List String) (a : sc_args) (n : Nat)
    (v : List String)
    (h : sc_nonfatal_parse_args (some argv.length) (some argv) = ⟨some a, some n, some v, none⟩) :
    (a.is_classic_confinement = true ↔
      "--classic" ∈ (argv.drop 1).take (argv.length - n - 1)) := by
  obtain ⟨hz, stop, hscan, hn⟩ := parse_success_shape argv.length argv a n v h
  rw [List.take_length] at hscan
  have hb := scan_stop_bounds (argv.drop 1) _ _ _ _ _ hscan
  have hc := scan_classic_mem (argv.drop 1) _ _ _ _ _ hscan
  have hlen : (argv.drop 1).length = argv.length - 1 := by simp
  have hstop : argv.length - n - 1 = stop - 1 := by omega
  rw [hstop]
  simpa using hc

/-- Witness for the amended C6: parsing ["prog", "--classic", "tag", "exe"]
succeeds with count 1 written back; the flag is true iff "--classic" lies in
the scanned prefix ["--classic", "tag"]. -/
theorem classic_iff_scanned_before_stop_witness :
    ((⟨some "tag", some "exe", false, true⟩ : sc_args).is_classic_confinement = true ↔
      "--classic" ∈ ((["prog", "--classic", "tag", "exe"] : List String).drop 1).take
        ((["prog", "--classic", "tag", "exe"] : List String).length - 1 - 1)) :=
  classic_iff_scanned_before_stop ["prog", "--classic", "tag", "exe"]
    ⟨some "tag", some "exe", false, true⟩ 1 ["prog"] (by decide)

/-- C7 counterexample: parsing ["prog", "", "x"] succeeds with
is_version_query false while the stored security_tag is the empty string:
the code only checks the fields against NULL, never against emptiness. -/
theorem empty_tag_accepted :
    sc_nonfatal_parse_args (some 3) (some ["prog", "", "x"]) =
      ⟨some ⟨some "", some "x", false, false⟩, some 1, some ["prog"], none⟩ ∧
    ("" : String).length = 0 := by
  decide

/-- C7 as amended: on every successful parse with is_version_query false,
security_tag and executable are both set (non-NULL); they may however be
empty strings. -/
theorem success_nonversion_fields_set (argcp : Option Nat) (argvp : Option (List String))
    (a : sc_args) (c : Option Nat) (vv : Option (List String)) (e : Option sc_error)
    (h : sc_nonfatal_parse_args argcp argvp = ⟨some a, c, vv, e⟩)
    (hq : a.is_version_query = false) :
    a.security_tag ≠ none ∧ a.executable ≠ none := by
  cases argcp with
  | none => simp [sc_nonfatal_parse_args] at h
  | some argc =>
    cases argvp with
    | none => simp [sc_nonfatal_parse_args] at h
    | some argv =>
      simp only [sc_nonfatal_parse_args] at h
      split at h
      · simp at h
      · split at h
        · simp at h
        · rename_i args optind heq
          split at h
          · simp at h
          · split at h
            · simp at h
            · rename_i hc1 hc2
              simp only [ParseResult.mk.injEq, Option.some.injEq] at h
              obtain ⟨ha, -, -, -⟩ := h
              subst ha
              constructor
              · intro ht
                apply hc1
                simp [hq, ht]
              · intro ht
                apply hc2
                simp [hq, ht]

/-- Witness for the amended C7 at ["prog", "tag", "exe"]. -/
theorem success_nonversion_fields_set_witness :
    (⟨some "tag", some "exe", false, false⟩ : sc_args).security_tag ≠ none ∧
    (⟨some "tag", some "exe", false, false⟩ : sc_args).executable ≠ none :=
  success_nonversion_fields_set (some 3) (some ["prog", "tag", "exe"])
    ⟨some "tag", some "exe", false, false⟩ (some 1) (some ["prog"]) none
    (by decide) rfl

/-- C9: whenever the call returns NULL (NULL argc or argv handle, zero
count, unrecognized switch, or missing tag/executable), the caller cells
are returned exactly as they came in and the error cell is populated. -/
theorem failure_preserves_cells (argcp : Option Nat) (argvp : Option (List String))
    (c : Option Nat) (vv : Option (List String)) (e : Option sc_error)
    (h : sc_nonfatal_parse_args argcp argvp = ⟨none, c, vv, e⟩) :
    c = argcp ∧ vv = argvp ∧ e ≠ none := by
  cases argcp with
  | none =>
    simp only [sc_nonfatal_parse_args, ParseResult.mk.injEq] at h
    obtain ⟨-, rfl, rfl, rfl⟩ := h
    simp
  | some argc =>
    cases argvp with
    | none =>
      simp only [sc_nonfatal_parse_args, ParseResult.mk.injEq] at h
      obtain ⟨-, rfl, rfl, rfl⟩ := h
      simp
    | some argv =>
      simp only [sc_nonfatal_parse_args] at h
      split at h
      · simp only [ParseResult.mk.injEq] at h
        obtain ⟨-, rfl, rfl, rfl⟩ := h
        simp
      · split at h
        · simp only [ParseResult.mk.injEq] at h
          obtain ⟨-, rfl, rfl, rfl⟩ := h
          simp
        · split at h
          · simp only [ParseResult.mk.injEq] at h
            obtain ⟨-, rfl, rfl, rfl⟩ := h
            simp
          · split at h
            · simp only [ParseResult.mk.injEq] at h
              obtain ⟨-, rfl, rfl, rfl⟩ := h
              simp
            · simp at h

/-- Witness for C9 at the NULL-handles input. -/
theorem failure_preserves_cells_witness :
    (none : Option Nat) = none ∧ (none : Option (List String)) = none ∧
    (some ⟨SC_ARGS_DOMAIN, 0, "cannot parse arguments, argc or argv are NULL"⟩ :
      Option sc_error) ≠ none :=
  failure_preserves_cells none none none none
    (some ⟨SC_ARGS_DOMAIN, 0, "cannot parse arguments, argc or argv are NULL"⟩) rfl
